import Mathlib

/- Verification of the isign bundle-resigning orchestrator (src/isign/bundle.py)
   against its natural-language specification.  The Python source is shallowly
   embedded: plist values become the inductive `PVal`, plist dictionaries become
   association lists, filesystem state becomes explicit predicates/maps, and
   fallible operations return `Except`. -/

namespace Isign

/-- Plist values: strings, arrays, and dictionaries (association lists).
    This is the value universe needed by bundle.py: `Info.plist` mappings,
    `CFBundleSupportedPlatforms` arrays, and `CFBundleURLTypes` entries. -/
inductive PVal where
  | str : String → PVal
  | arr : List PVal → PVal
  | dict : List (String × PVal) → PVal

mutual

def PVal.decEq : (a b : PVal) → Decidable (a = b)
  | .str a, .str b =>
      if h : a = b then .isTrue (by rw [h]) else .isFalse (by intro hh; cases hh; exact h rfl)
  | .str _, .arr _ => .isFalse nofun
  | .str _, .dict _ => .isFalse nofun
  | .arr _, .str _ => .isFalse nofun
  | .arr a, .arr b =>
      match PVal.decEqList a b with
      | .isTrue h => .isTrue (by rw [h])
      | .isFalse h => .isFalse (by intro hh; cases hh; exact h rfl)
  | .arr _, .dict _ => .isFalse nofun
  | .dict _, .str _ => .isFalse nofun
  | .dict _, .arr _ => .isFalse nofun
  | .dict a, .dict b =>
      match PVal.decEqDict a b with
      | .isTrue h => .isTrue (by rw [h])
      | .isFalse h => .isFalse (by intro hh; cases hh; exact h rfl)

def PVal.decEqList : (a b : List PVal) → Decidable (a = b)
  | [], [] => .isTrue rfl
  | [], _ :: _ => .isFalse nofun
  | _ :: _, [] => .isFalse nofun
  | x :: xs, y :: ys =>
      match PVal.decEq x y, PVal.decEqList xs ys with
      | .isTrue h1, .isTrue h2 => .isTrue (by rw [h1, h2])
      | .isFalse h1, _ => .isFalse (by intro hh; cases hh; exact h1 rfl)
      | _, .isFalse h2 => .isFalse (by intro hh; cases hh; exact h2 rfl)

def PVal.decEqDict : (a b : List (String × PVal)) → Decidable (a = b)
  | [], [] => .isTrue rfl
  | [], _ :: _ => .isFalse nofun
  | _ :: _, [] => .isFalse nofun
  | (k1, v1) :: xs, (k2, v2) :: ys =>
      match String.decEq k1 k2, PVal.decEq v1 v2, PVal.decEqDict xs ys with
      | .isTrue hk, .isTrue h1, .isTrue h2 => .isTrue (by rw [hk, h1, h2])
      | .isFalse hk, _, _ => .isFalse (by intro hh; cases hh; exact hk rfl)
      | _, .isFalse h1, _ => .isFalse (by intro hh; cases hh; exact h1 rfl)
      | _, _, .isFalse h2 => .isFalse (by intro hh; cases hh; exact h2 rfl)

end

instance : DecidableEq PVal := PVal.decEq

instance (priority := low) {e a : Type} [DecidableEq e] [DecidableEq a] :
    DecidableEq (Except e a) := fun x y =>
  match x, y with
  | .ok v, .ok w =>
      if h : v = w then .isTrue (by rw [h]) else .isFalse (by intro hh; cases hh; exact h rfl)
  | .error v, .error w =>
      if h : v = w then .isTrue (by rw [h]) else .isFalse (by intro hh; cases hh; exact h rfl)
  | .ok _, .error _ => .isFalse nofun
  | .error _, .ok _ => .isFalse nofun

/-- A plist dictionary: a Python dict of string keys (keys unique in practice). -/
abbrev AList := List (String × PVal)

/-- `d[k]` lookup in a plist dictionary (first matching key). -/
def lookupP (k : String) (l : AList) : Option PVal :=
  match l with
  | [] => none
  | (k2, v) :: rest => if k2 = k then some v else lookupP k rest

/-- Python `k in d` membership test. -/
def hasKey (k : String) (l : AList) : Bool :=
  (lookupP k l).isSome

/-- Python `d[k] = v` assignment: replaces the value at an existing key in
    place, appends the pair when the key is new. -/
def setKey (l : AList) (k : String) (v : PVal) : AList :=
  match l with
  | [] => [(k, v)]
  | (k2, v2) :: rest =>
      if k2 = k then (k2, v) :: rest else (k2, v2) :: setKey rest k v

/-- Helper for `splitOnChar`: accumulates the current segment (reversed). -/
def splitOnCharAux (sep : Char) : List Char → List Char → List String
  | [], acc => [String.mk acc.reverse]
  | c :: rest, acc =>
      if c = sep then String.mk acc.reverse :: splitOnCharAux sep rest []
      else splitOnCharAux sep rest (c :: acc)

/-- Python `s.split(sep)` for a one-character separator (as used with `"."`
    and `"/"` in bundle.py): the empty string splits to `[""]`. -/
def splitOnChar (sep : Char) (s : String) : List String :=
  splitOnCharAux sep s.toList []

/-- Python `s.startswith(pre)`. -/
def strStartsWith (s pre : String) : Bool :=
  pre.toList.isPrefixOf s.toList

/-- Python `s.endswith(suf)`. -/
def strEndsWith (s suf : String) : Bool :=
  suf.toList.reverse.isPrefixOf s.toList.reverse

/-- `os.path.join(a, b)` for a single right operand (posix semantics). -/
def joinPath (a b : String) : String :=
  if strStartsWith b "/" then b
  else if a = "" || strEndsWith a "/" then a ++ b
  else a ++ "/" ++ b

/-- `os.path.basename(p)`: everything after the last slash. -/
def pathBasename (p : String) : String :=
  (splitOnChar '/' p).getLastD ""

/-- Index of the last occurrence of `c` in the list, if any. -/
def lastIdxOf (c : Char) : List Char → Option Nat
  | [] => none
  | x :: rest =>
      match lastIdxOf c rest with
      | some i => some (i + 1)
      | none => if x = c then some 0 else none

/-- The root part of `os.path.splitext` applied to a file name with no
    directory separators: everything before the last dot, except that a name
    whose characters before that dot are all dots is returned whole. -/
def splitextRoot (s : String) : String :=
  let cs := s.toList
  match lastIdxOf '.' cs with
  | none => s
  | some i => if (cs.take i).all (fun c => c = '.') then s else String.mk (cs.take i)

/-- First index at which `needle` occurs as a contiguous sublist of `hay`
    (Python `str.find`, as an `Option` instead of `-1`). -/
def findSub (hay needle : List Char) : Option Nat :=
  match hay with
  | [] => if needle = [] then some 0 else none
  | _ :: rest =>
      if needle.isPrefixOf hay then some 0
      else (findSub rest needle).map (· + 1)

/- ------------------------------------------------------------------ -/
/- Identifier Rewriter: App.change_bundle_id (bundle.py lines 210-236) -/
/- ------------------------------------------------------------------ -/

/-- Outcome of the `for i in range(num)` comparison loop in
    `App.change_bundle_id`: an early `return` on a wildcard segment, a `break`
    on a mismatching segment, or falling off the end (the `for`/`else` case). -/
inductive CmpOutcome where
  | wildcard : CmpOutcome
  | mismatch : CmpOutcome
  | allMatched : CmpOutcome
deriving DecidableEq

/-- The comparison loop of `App.change_bundle_id`: walks the old and new
    segment lists in lockstep (i.e. for indices below the min of the lengths),
    checking `newids[i] == "*"` first, then `newids[i] != oldids[i]`. -/
def cmpLoop : List String → List String → CmpOutcome
  | o :: os, n :: ns =>
      if n = "*" then .wildcard
      else if n ≠ o then .mismatch
      else cmpLoop os ns
  | _, _ => .allMatched

/-- `".".join(newids)` after replacing every `"*"` segment by `"isign"`. -/
def materializeWildcards (ns : List String) : String :=
  String.intercalate "." (ns.map (fun s => if s = "*" then "isign" else s))

/-- Pure core of `App.change_bundle_id`: given the current identifier, the
    optional explicit override (`new_appid`) and the credential's
    `application-identifier`, returns `some newIdentifier` when the identifier
    is rewritten and `none` when it is left unchanged. -/
def change_bundle_id (oldid : String) (new_appid : Option String)
    (provisionAppId : String) : Option String :=
  let newid := match new_appid with
    | none => provisionAppId
    | some s => s
  let oldids := splitOnChar '.' oldid
  let newids := (splitOnChar '.' newid).drop 1
  match cmpLoop oldids newids with
  | .wildcard => none
  | .allMatched =>
      if oldids.length = newids.length then none
      else some (materializeWildcards newids)
  | .mismatch => some (materializeWildcards newids)

inductive UpdErr where
  | keyError : UpdErr
  | typeError : UpdErr
deriving DecidableEq

/-- Effect of `App.change_bundle_id` on `self.info`: reads the current
    `CFBundleIdentifier` (a missing key or a non-string value would raise in
    Python), and on a rewrite stores the new identifier under that key and
    writes the plist back (the returned flag records the write). -/
def change_bundle_id_info (info : AList) (new_appid : Option String)
    (provisionAppId : String) : Except UpdErr (AList × Bool) :=
  match lookupP "CFBundleIdentifier" info with
  | some (.str oldid) =>
      .ok (match change_bundle_id oldid new_appid provisionAppId with
        | none => (info, false)
        | some nid => (setKey info "CFBundleIdentifier" (.str nid), true))
  | some _ => .error .typeError
  | none => .error .keyError

/-- Modelled from the spec: §4.2 step 3.  The first position `i` below
    `min (len O) (len N)` at which the comparison stops — because `N[i]` is the
    wildcard token or because `N[i] ≠ O[i]` — reported as the stopping segment
    `N[i]`, or `none` when the comparison completes. -/
def specFirstStop (O N : List String) : Option String :=
  ((O.zip N).find? (fun p => p.2 == "*" || p.2 != p.1)).map (fun p => p.2)

/-- Modelled from the spec: §4.2, the Identifier Rewriter algorithm, stated in
    the spec's own terms: split `oldId` into `O`; split the candidate and drop
    its first segment to get `N`; if the first stopping segment is the wildcard
    token, leave the identifier unchanged; if the comparison completes with
    `len O = len N`, leave it unchanged; otherwise materialize wildcards in `N`
    as `"isign"` and join with dots. -/
def rewriteIdSpec (oldId candidate : String) : Option String :=
  let O := splitOnChar '.' oldId
  let N := (splitOnChar '.' candidate).drop 1
  match specFirstStop O N with
  | some n => if n = "*" then none else some (materializeWildcards N)
  | none =>
      if O.length = N.length then none
      else some (materializeWildcards N)

/- ------------------------------------------------------------------- -/
/- Metadata Store: Bundle.update_info_props and the dirty checks        -/
/- (bundle.py lines 67-109)                                             -/
/- ------------------------------------------------------------------- -/

/-- The in-memory state of a `Bundle`'s metadata: `self.info` (the current
    plist mapping) and `self.orig_info` (the lazily captured baseline,
    `none` for Python `None`). -/
structure MetaStore where
  info : AList
  orig_info : Option AList
deriving DecidableEq

/-- One iteration of the `for url_type in self.info['CFBundleURLTypes']`
    loop: when the entry is a mapping whose `CFBundleURLName` equals the old
    bundle identifier, that name is overwritten with the new identifier and
    the `changed` flag is raised.  Entries that are not mappings are outside
    the plist schema bundle.py assumes and are left untouched here. -/
def rewriteUrlEntry (oldId newId : PVal) (e : PVal) : PVal × Bool :=
  match e with
  | .dict d =>
      match lookupP "CFBundleURLName" d with
      | none => (e, false)
      | some n =>
          if n = oldId then (.dict (setKey d "CFBundleURLName" newId), true)
          else (e, false)
  | _ => (e, false)

/-- The whole `CFBundleURLTypes` rewrite loop: rewrites each entry and
    reports whether any entry raised the `changed` flag. -/
def rewriteUrlTypes (oldId newId : PVal) (l : List PVal) : List PVal × Bool :=
  match l with
  | [] => ([], false)
  | e :: rest =>
      let r1 := rewriteUrlEntry oldId newId e
      let r2 := rewriteUrlTypes oldId newId rest
      (r1.1 :: r2.1, r1.2 || r2.2)

/-- The `for key, val in new_props.iteritems()` loop: each requested pair is
    compared against the evolving mapping (`is_new_key or self.info[key] !=
    val`, which is exactly "the lookup does not yield this value"); a
    differing pair is stored and raises the `changed` flag. -/
def applyProps (info : AList) (ps : AList) : AList × Bool :=
  match ps with
  | [] => (info, false)
  | (k, v) :: rest =>
      if lookupP k info = some v then applyProps info rest
      else ((applyProps (setKey info k v) rest).1, true)

/-- Tail of `Bundle.update_info_props`: run the key/value loop, then either
    persist (`changed` true: plist written, baseline kept) or discard the
    baseline (`changed` false: `self.orig_info = None`).  The returned flag
    records whether the plist was written back. -/
def finishUpdate (orig : AList) (info1 : AList) (changed0 : Bool) (ps : AList) :
    Except UpdErr (MetaStore × Bool) :=
  let r := applyProps info1 ps
  if changed0 || r.2 then .ok ({ info := r.1, orig_info := some orig }, true)
  else .ok ({ info := r.1, orig_info := none }, false)

/-- `Bundle.update_info_props(new_props)`.  The baseline is captured at entry
    when absent; the `CFBundleURLTypes` special rule runs when the update
    carries `CFBundleIdentifier`, the current mapping carries
    `CFBundleURLTypes`, and the update does not; then every requested
    key/value is applied.  A missing current `CFBundleIdentifier` (Python
    `KeyError`) or a non-array `CFBundleURLTypes` value (Python iteration
    over a non-list) is a fatal error. -/
def update_info_props (st : MetaStore) (new_props : AList) :
    Except UpdErr (MetaStore × Bool) :=
  let orig := st.orig_info.getD st.info
  if hasKey "CFBundleIdentifier" new_props && hasKey "CFBundleURLTypes" st.info
      && !hasKey "CFBundleURLTypes" new_props then
    match lookupP "CFBundleIdentifier" st.info with
    | none => .error .keyError
    | some old_bundle_id =>
        match lookupP "CFBundleURLTypes" st.info,
              lookupP "CFBundleIdentifier" new_props with
        | some (.arr url_types), some new_bundle_id =>
            let r := rewriteUrlTypes old_bundle_id new_bundle_id url_types
            finishUpdate orig (setKey st.info "CFBundleURLTypes" (.arr r.1)) r.2 new_props
        | some _, some _ => .error .typeError
        | _, _ => .error .keyError
  else
    finishUpdate orig st.info false new_props

/-- `Bundle.info_props_changed`: `self.orig_info is not None`. -/
def info_props_changed (st : MetaStore) : Bool :=
  st.orig_info.isSome

/-- `Bundle.info_prop_changed(key)`: false when no baseline is held (Python
    truthiness: a captured empty mapping is also falsy), false when the key is
    present in both mappings with equal values, true otherwise. -/
def info_prop_changed (st : MetaStore) (key : String) : Bool :=
  match st.orig_info with
  | none => false
  | some o =>
      if o = [] then false
      else !(hasKey key st.info && hasKey key o
             && decide (lookupP key st.info = lookupP key o))

/-- Whether a `CFBundleURLTypes` entry is one the rewrite loop matches: a
    mapping whose `CFBundleURLName` equals the old bundle identifier (this
    is also exactly when the loop raises its `changed` flag, even when the
    new identifier coincides with the old one). -/
def urlEntryMatches (oldId : PVal) (e : PVal) : Bool :=
  match e with
  | .dict d =>
      match lookupP "CFBundleURLName" d with
      | some n => decide (n = oldId)
      | none => false
  | _ => false

/-- Modelled from the spec: §4.4 of the Metadata Store design — "for every
    scheme entry whose URL name equals the old identifier value, rewrite it
    in place to the new identifier value"; entries with a different URL
    name, or with no URL name key, are left unchanged. -/
def specRewriteUrlEntry (oldId newId : PVal) (e : PVal) : PVal :=
  match e with
  | .dict d =>
      match lookupP "CFBundleURLName" d with
      | some n =>
          if n = oldId then .dict (setKey d "CFBundleURLName" newId) else e
      | none => e
  | _ => e

/-- Whether an `update_info_props` call fires the URL-scheme rewrite on at
    least one entry: the special-rule condition holds (identifier key in
    the update, URL-scheme list in the current mapping and not in the
    update) and some scheme entry's URL name equals the current
    identifier. -/
def urlHit (st : MetaStore) (ps : AList) : Bool :=
  hasKey "CFBundleIdentifier" ps && hasKey "CFBundleURLTypes" st.info
  && !hasKey "CFBundleURLTypes" ps
  && (match lookupP "CFBundleIdentifier" st.info,
            lookupP "CFBundleURLTypes" st.info with
      | some oldId, some (.arr l) => l.any (urlEntryMatches oldId)
      | _, _ => false)


/- ------------------------------------------------------------------- -/
/- Package Classifier: Bundle.__init__ and is_info_plist_native        -/
/- (bundle.py lines 27-51)                                             -/
/- ------------------------------------------------------------------- -/

/-- What `biplist.readPlist` does with a present file: yields a mapping or
    raises a (fatal) decode error. -/
inductive PlistFile where
  | decodable : AList → PlistFile
  | undecodable : PlistFile

instance : DecidableEq PlistFile := fun a b =>
  match a, b with
  | .decodable x, .decodable y =>
      if h : x = y then .isTrue (by rw [h]) else .isFalse (by intro hh; cases hh; exact h rfl)
  | .undecodable, .undecodable => .isTrue rfl
  | .decodable _, .undecodable => .isFalse nofun
  | .undecodable, .decodable _ => .isFalse nofun

/-- Outcome of constructing a `Bundle` on a directory: success carrying the
    decoded `Info.plist`, the `NotMatched` skip signal with its message, or a
    fatal (propagating) decode error. -/
inductive ClassifyResult where
  | ok : AList → ClassifyResult
  | notMatched : String → ClassifyResult
  | fatal : ClassifyResult

instance : DecidableEq ClassifyResult := fun a b =>
  match a, b with
  | .ok x, .ok y =>
      if h : x = y then .isTrue (by rw [h]) else .isFalse (by intro hh; cases hh; exact h rfl)
  | .notMatched x, .notMatched y =>
      if h : x = y then .isTrue (by rw [h]) else .isFalse (by intro hh; cases hh; exact h rfl)
  | .fatal, .fatal => .isTrue rfl
  | .ok _, .notMatched _ => .isFalse nofun
  | .ok _, .fatal => .isFalse nofun
  | .notMatched _, .ok _ => .isFalse nofun
  | .notMatched _, .fatal => .isFalse nofun
  | .fatal, .ok _ => .isFalse nofun
  | .fatal, .notMatched _ => .isFalse nofun

/-- Python `needle in s` substring test on strings. -/
def strContainsSub (s needle : String) : Bool :=
  (findSub s.toList needle.toList).isSome

/-- Python `needle in v` for a plist value `v`: element membership in an
    array, key membership in a mapping, substring membership in a string. -/
def pyContains (v : PVal) (needle : String) : Bool :=
  match v with
  | .str s => strContainsSub s needle
  | .arr l => l.any (fun e => decide (e = .str needle))
  | .dict d => hasKey needle d

/-- `is_info_plist_native(plist)`: `CFBundleSupportedPlatforms` is a key of
    the plist and `iPhoneOS` is in its value. -/
def is_info_plist_native (plist : AList) : Bool :=
  match lookupP "CFBundleSupportedPlatforms" plist with
  | some v => pyContains v "iPhoneOS"
  | none => false

/-- `Bundle.__init__(path)` as a classifier: `NotMatched` when
    `<path>/Info.plist` does not exist or the decoded plist is not native
    iOS; a decode error propagates as fatal; otherwise the decoded mapping
    is returned.  The function is read-only: the filesystem argument is not
    modified (there is no write in this code path). -/
def classify (fs : String → Option PlistFile) (path : String) : ClassifyResult :=
  let info_path := joinPath path "Info.plist"
  match fs info_path with
  | none => .notMatched "no Info.plist found; probably not a bundle"
  | some .undecodable => .fatal
  | some (.decodable p) =>
      if is_info_plist_native p then .ok p
      else .notMatched "not a native iOS bundle"

/- ------------------------------------------------------------------- -/
/- Main-executable resolution: Bundle.get_executable_path              -/
/- (bundle.py lines 53-65)                                             -/
/- ------------------------------------------------------------------- -/

inductive ExeErr where
  | missingExecutable : ExeErr
  | typeMismatch : ExeErr
deriving DecidableEq

/-- `Bundle.get_executable_path()`: the executable name is the value of
    `CFBundleExecutable` in `self.info` when that key is present, otherwise
    the bundle directory basename with its extension stripped; the name is
    joined to the bundle path and the result must exist on disk (else the
    fatal missing-executable error).  A non-string `CFBundleExecutable`
    value would fail Python's path join and is mapped to `typeMismatch`. -/
def get_executable_path (fsExists : String → Bool) (path : String)
    (info : AList) : Except ExeErr String :=
  match lookupP "CFBundleExecutable" info with
  | some (.str executable_name) =>
      let executable := joinPath path executable_name
      if fsExists executable then .ok executable else .error .missingExecutable
  | some _ => .error .typeMismatch
  | none =>
      let executable := joinPath path (splitextRoot (pathBasename path))
      if fsExists executable then .ok executable else .error .missingExecutable

/- ------------------------------------------------------------------- -/
/- Credential Loader: App.load_provision_data (bundle.py lines 238-252) -/
/- ------------------------------------------------------------------- -/

/-- The opening marker of the embedded plist document. -/
def xmlBeginMarker : List Char := "<?xml version=".toList

/-- The closing marker (8 characters, hence the `+ 8` in the slice). -/
def plistEndMarker : List Char := "</plist>".toList

/-- The credential state `App.load_provision_data` populates on success:
    the plist payload bytes handed to the codec, and the source file path. -/
structure ProvisionData where
  new_provision : Option (List Char)
  new_provision_path : Option String
deriving DecidableEq

inductive CredErr where
  | malformed : CredErr
deriving DecidableEq

/-- `App.load_provision_data(provision_path)` on the raw bytes of the file:
    find the first occurrence of each marker, fail (the Python assert with
    message "mobileprovision format error") when either is absent, otherwise
    take the slice of `profile_data` from `begin_pos` up to `end_pos + 8`
    as the payload and retain the source path.  On failure no state is
    produced: the caller's fields stay untouched. -/
def load_provision_data (data : List Char) (provision_path : String) :
    Except CredErr ProvisionData :=
  match findSub data xmlBeginMarker, findSub data plistEndMarker with
  | some begin_pos, some end_pos =>
      .ok { new_provision := some ((data.drop begin_pos).take (end_pos + 8 - begin_pos)),
            new_provision_path := some provision_path }
  | _, _ => .error .malformed

/- ------------------------------------------------------------------- -/
/- Application-extension variant: AppEx (bundle.py lines 262-279)      -/
/- ------------------------------------------------------------------- -/

/-- The fields of an `AppEx` instance relevant to its credential steps:
    `self.provision_path` (the fixed `embedded.mobileprovision` destination
    inside the extension), `self.entitlements_path` (`none` models the
    attribute after `del`), and `self.new_provision` (`none` when the
    attribute was never assigned). -/
structure AppExState where
  provision_path : String
  entitlements_path : Option String
  new_provision : Option PVal
  new_provision_path : Option String
deriving DecidableEq

/-- Observable filesystem writes of the credential steps. -/
inductive FileOp where
  | copyFile : String → String → FileOp
  | writeEntitlements : String → FileOp
deriving DecidableEq

inductive AppExErr where
  | ioError : AppExErr
  | attrError : AppExErr
  | keyError : AppExErr
  | typeMismatch : AppExErr
deriving DecidableEq

/-- `AppEx.load_provision_data`: a no-op when the source trust-container
    path does not exist; otherwise the App behavior, with the byte-level
    decode (verified separately as `load_provision_data`) represented by the
    oracle `decoded`. -/
def appex_load_provision_data (fsExists : String → Bool)
    (decoded : String → PVal) (provision_path : String)
    (st : AppExState) : AppExState :=
  if fsExists provision_path then
    { st with new_provision := some (decoded provision_path),
              new_provision_path := some provision_path }
  else st

/-- `AppEx.copy_provision`: copies only when the extension's own
    `embedded.mobileprovision` already exists; `shutil.copyfile` then raises
    an IOError when the source path does not exist. -/
def appex_copy_provision (fsExists : String → Bool) (provision_path : String)
    (st : AppExState) : Except AppExErr (List FileOp) :=
  if fsExists st.provision_path then
    if fsExists provision_path then .ok [.copyFile provision_path st.provision_path]
    else .error .ioError
  else .ok []

/-- `AppEx.create_entitlements`: when no credential file is present at the
    extension's own provision path, clear the entitlements path (the `del`
    of `self.entitlements_path`) and write nothing; otherwise write the
    `Entitlements` entry of `self.new_provision` to the entitlements path,
    which in Python raises when `new_provision` was never assigned, when the
    payload has no `Entitlements` key, or when `entitlements_path` was
    deleted. -/
def appex_create_entitlements (fsExists : String → Bool) (st : AppExState) :
    Except AppExErr (AppExState × List FileOp) :=
  if fsExists st.provision_path then
    match st.new_provision with
    | none => .error .attrError
    | some p =>
        match p with
        | .dict d =>
            match lookupP "Entitlements" d with
            | some _ =>
                match st.entitlements_path with
                | some ep => .ok (st, [.writeEntitlements ep])
                | none => .error .attrError
            | none => .error .keyError
        | _ => .error .typeMismatch
  else .ok ({ st with entitlements_path := none }, [])

/-- The three credential steps of `AppEx.resign` in source order (load, copy,
    create-entitlements), threading state and collecting writes; the first
    raised error aborts, leaving earlier in-memory state with the caller. -/
def appexCredentialSteps (fsExists : String → Bool) (decoded : String → PVal)
    (provision_path : String) (st : AppExState) :
    Except AppExErr (AppExState × List FileOp) :=
  let st1 := appex_load_provision_data fsExists decoded provision_path st
  match appex_copy_provision fsExists provision_path st1 with
  | .error e => .error e
  | .ok ops1 =>
      match appex_create_entitlements fsExists st1 with
      | .error e => .error e
      | .ok (st2, ops2) => .ok (st2, ops1 ++ ops2)

/- ------------------------------------------------------------------- -/
/- Resign Orchestrator: Bundle.sign (bundle.py lines 114-166)          -/
/- ------------------------------------------------------------------- -/

/-- Observable completion events of the recursive signing pass. -/
inductive SignEv where
  | dylibSigned : String → SignEv
  | sealBuilt : String → SignEv
  | mainSigned : String → SignEv
deriving DecidableEq

/-- The directory shape `Bundle.sign` traverses: the bundle path, the
    entries of the `Frameworks` subfolder (`none` for an entry whose
    classification raises `NotMatched` and is skipped), the dylib files of
    that subfolder, the dylib files of the bundle root, and the appex
    extensions under `PlugIns` (bundles of their own).  An absent
    `Frameworks` or `PlugIns` directory is an empty list. -/
inductive BundleModel where
  | mk : String → List (Option BundleModel) → List String → List String →
      List BundleModel → BundleModel

/-- The bundle's directory path. -/
def BundleModel.path : BundleModel → String
  | .mk p _ _ _ _ => p

/-- The completion events `Bundle.sign` emits, in source order: resign each
    classified `Frameworks` entry (each a full recursive pass), sign the
    dylibs under `Frameworks`, sign the dylibs in the bundle root, resign
    each extension (a full recursive pass), build the seal, sign the main
    executable. -/
def signTrace : BundleModel → List SignEv
  | .mk path frameworks frameworkDylibs rootDylibs appexes =>
      ((frameworks.filterMap id).attach.map (fun fw => signTrace fw.1)).flatten
      ++ frameworkDylibs.map SignEv.dylibSigned
      ++ rootDylibs.map SignEv.dylibSigned
      ++ (appexes.attach.map (fun ax => signTrace ax.1)).flatten
      ++ [SignEv.sealBuilt path, SignEv.mainSigned path]
decreasing_by
  all_goals simp_wf
  · rcases List.mem_filterMap.mp fw.2 with ⟨ob, hob, hid⟩
    cases ob with
    | none => simp at hid
    | some b =>
      simp only [id] at hid
      injection hid with hbe
      have h1 := List.sizeOf_lt_of_mem hob
      rw [hbe] at h1
      simp only [Option.some.sizeOf_spec] at h1
      omega
  · have h1 := List.sizeOf_lt_of_mem ax.2
    omega


/- ------------------------------------------------------------------- -/
/- Theorems                                                            -/
/- ------------------------------------------------------------------- -/

/-- C3: classification fails with the `NotMatched` skip signal exactly when
    the `Info.plist` property file is missing at the expected location or
    when the decoded property file lacks the native-platform markers; a
    decode error on a present file is the only fatal outcome.  `classify`
    is a pure read of the filesystem map, so the `NotMatched` cases have no
    side effects by construction. -/
theorem classify_notMatched_iff (fs : String → Option PlistFile) (path : String) :
    ((∃ msg, classify fs path = .notMatched msg) ↔
      (fs (joinPath path "Info.plist") = none ∨
        ∃ p, fs (joinPath path "Info.plist") = some (.decodable p) ∧
          is_info_plist_native p = false))
    ∧ (classify fs path = .fatal ↔
        fs (joinPath path "Info.plist") = some .undecodable) := by
  cases hfs : fs (joinPath path "Info.plist") with
  | none => simp [classify, hfs]
  | some pf =>
    cases pf with
    | undecodable => simp [classify, hfs]
    | decodable p =>
      by_cases hn : is_info_plist_native p <;> simp [classify, hfs, hn]

/-- C4: the credential loader fails exactly when the opening marker
    `<?xml version=` or the closing marker `</plist>` is absent from the
    container bytes (the failure produces no credential state at all), and
    otherwise yields the byte range starting at the first occurrence of the
    opening marker and extending through the end of the first occurrence of
    the closing marker (`plistEndMarker.length = 8` bytes past its start),
    together with the retained source path. -/
theorem load_provision_data_markers (data : List Char) (provision_path : String) :
    (load_provision_data data provision_path = .error .malformed ↔
      (findSub data xmlBeginMarker = none ∨ findSub data plistEndMarker = none))
    ∧ (∀ b e, findSub data xmlBeginMarker = some b →
        findSub data plistEndMarker = some e →
        load_provision_data data provision_path =
          .ok { new_provision :=
                  some ((data.drop b).take (e + plistEndMarker.length - b)),
                new_provision_path := some provision_path }) := by
  constructor
  · cases hb : findSub data xmlBeginMarker with
    | none => simp [load_provision_data, hb]
    | some b =>
      cases he : findSub data plistEndMarker with
      | none => simp [load_provision_data, hb, he]
      | some e => simp [load_provision_data, hb, he]
  · intro b e hb he
    have hlen : plistEndMarker.length = 8 := by decide
    simp [load_provision_data, hb, he, hlen]

/-- C9: the main-executable path is the declared `CFBundleExecutable` name
    joined to the package path when that key is present (as a string),
    otherwise the package directory's basename with its extension stripped,
    joined to the package path; in either case resolution fails fatally
    with the missing-executable error when no file exists at the resolved
    path. -/
theorem get_executable_path_resolution (fsExists : String → Bool) (path : String)
    (info : AList) :
    (∀ s, lookupP "CFBundleExecutable" info = some (.str s) →
      get_executable_path fsExists path info =
        (if fsExists (joinPath path s) then .ok (joinPath path s)
         else .error .missingExecutable))
    ∧ (lookupP "CFBundleExecutable" info = none →
      get_executable_path fsExists path info =
        (if fsExists (joinPath path (splitextRoot (pathBasename path)))
         then .ok (joinPath path (splitextRoot (pathBasename path)))
         else .error .missingExecutable)) := by
  constructor
  · intro s hs
    simp [get_executable_path, hs]
  · intro hn
    simp [get_executable_path, hn]

/-- Witness for C9 at a concrete input: a bundle at `X.app` with no
    `CFBundleExecutable` key resolves to `X.app/X` when that file exists. -/
theorem get_executable_path_resolution_witness :
    lookupP "CFBundleExecutable" [] = none
    ∧ get_executable_path (fun p => decide (p = "X.app/X")) "X.app" [] = .ok "X.app/X" := by
  refine ⟨rfl, ?_⟩
  have h := (get_executable_path_resolution (fun p => decide (p = "X.app/X")) "X.app" []).2 rfl
  rw [h]
  decide

/-- C5 counterexample: with the source trust container absent but a
    credential file present at the extension's own path, the copy step is
    not a no-op — `shutil.copyfile` raises on the missing source — so the
    three steps do not all become no-ops and the resign raises. -/
theorem appex_missing_source_raises :
    appexCredentialSteps (fun p => decide (p = "e")) (fun _ => .dict []) "src"
      { provision_path := "e", entitlements_path := some "ent",
        new_provision := none, new_provision_path := none }
      = .error .ioError := by decide

/-- C5 amended: when the source trust-container path does not exist AND no
    credential file is present at the extension's own credential path, the
    credential-load, credential-copy and entitlements-write steps are all
    no-ops — no file is copied, no entitlements file is written, nothing is
    raised — and the entitlements path reference is cleared; moreover
    whenever no credential file is present at the extension's own
    credential path, the entitlements-write step alone is skipped and the
    entitlements path reference is cleared. -/
theorem appex_steps_noop_without_credentials (fsExists : String → Bool)
    (decoded : String → PVal) (provision_path : String) (st : AppExState)
    (hsrc : fsExists provision_path = false)
    (hown : fsExists st.provision_path = false) :
    appexCredentialSteps fsExists decoded provision_path st
      = .ok ({ st with entitlements_path := none }, [])
    ∧ ∀ st2 : AppExState, fsExists st2.provision_path = false →
        appex_create_entitlements fsExists st2
          = .ok ({ st2 with entitlements_path := none }, []) := by
  constructor
  · have hld : appex_load_provision_data fsExists decoded provision_path st = st := by
      simp [appex_load_provision_data, hsrc]
    simp [appexCredentialSteps, hld, appex_copy_provision, appex_create_entitlements,
      hsrc, hown]
  · intro st2 h2
    simp [appex_create_entitlements, h2]

/-- Witness for C5 (amended) at a concrete input: no trust container
    anywhere, so the three steps return the unchanged state with the
    entitlements path cleared and no filesystem writes. -/
theorem appex_steps_noop_without_credentials_witness :
    appexCredentialSteps (fun _ => false) (fun _ => .dict []) "src"
      { provision_path := "e", entitlements_path := some "ent",
        new_provision := none, new_provision_path := none }
      = .ok ({ provision_path := "e", entitlements_path := none,
               new_provision := none, new_provision_path := none }, []) :=
  (appex_steps_noop_without_credentials (fun _ => false) (fun _ => .dict []) "src"
    { provision_path := "e", entitlements_path := some "ent",
      new_provision := none, new_provision_path := none } rfl rfl).1

/-- C2: for every package, the signing trace ends with the parent's
    seal-build followed by the parent's main-executable signature, and
    everything before those two events contains — in full — the trace of
    every classified nested library package, a dylib-signature event for
    every loadable binary under the nested-libraries directory and in the
    package root, and the trace of every extension package.  Since each
    child's trace itself ends with that child's own seal/main-signature
    events, every nested component completes its signing strictly before
    the parent's seal is built, which is strictly before the parent's
    executable is signed. -/
theorem sign_children_before_seal_before_main (path : String)
    (frameworks : List (Option BundleModel))
    (frameworkDylibs rootDylibs : List String) (appexes : List BundleModel) :
    ∃ pre : List SignEv,
      signTrace (.mk path frameworks frameworkDylibs rootDylibs appexes)
        = pre ++ [SignEv.sealBuilt path, SignEv.mainSigned path]
      ∧ (∀ b : BundleModel, some b ∈ frameworks → (signTrace b).Sublist pre)
      ∧ (∀ d ∈ frameworkDylibs, SignEv.dylibSigned d ∈ pre)
      ∧ (∀ d ∈ rootDylibs, SignEv.dylibSigned d ∈ pre)
      ∧ (∀ b ∈ appexes, (signTrace b).Sublist pre) := by
  refine ⟨((frameworks.filterMap id).attach.map (fun fw => signTrace fw.1)).flatten
      ++ (frameworkDylibs.map SignEv.dylibSigned
      ++ (rootDylibs.map SignEv.dylibSigned
      ++ (appexes.attach.map (fun ax => signTrace ax.1)).flatten)), ?_, ?_, ?_, ?_, ?_⟩
  · rw [signTrace]
    simp [List.append_assoc]
  · intro b hb
    have hb' : b ∈ frameworks.filterMap id := List.mem_filterMap.mpr ⟨some b, hb, rfl⟩
    have hmem : signTrace b
        ∈ (frameworks.filterMap id).attach.map (fun fw => signTrace fw.1) :=
      List.mem_map.mpr ⟨⟨b, hb'⟩, List.mem_attach _ _, rfl⟩
    exact (List.sublist_flatten_of_mem hmem).trans (List.sublist_append_left _ _)
  · intro d hd
    have : SignEv.dylibSigned d ∈ frameworkDylibs.map SignEv.dylibSigned :=
      List.mem_map.mpr ⟨d, hd, rfl⟩
    simp only [List.mem_append]
    exact Or.inr (Or.inl this)
  · intro d hd
    have : SignEv.dylibSigned d ∈ rootDylibs.map SignEv.dylibSigned :=
      List.mem_map.mpr ⟨d, hd, rfl⟩
    simp only [List.mem_append]
    exact Or.inr (Or.inr (Or.inl this))
  · intro b hb
    have hmem : signTrace b ∈ appexes.attach.map (fun ax => signTrace ax.1) :=
      List.mem_map.mpr ⟨⟨b, hb⟩, List.mem_attach _ _, rfl⟩
    exact (List.sublist_flatten_of_mem hmem).trans
      ((List.sublist_append_right _ _).trans
        ((List.sublist_append_right _ _).trans (List.sublist_append_right _ _)))

/-- The `for`/`break`/`else` comparison loop of the source agrees with the
    spec's description "compare `O[i]` with `N[i]` in order and stop at the
    first wildcard or mismatch": the loop returns `wildcard` iff the first
    stopping segment is the wildcard token, `mismatch` iff it is some other
    segment, and `allMatched` iff the comparison completes. -/
theorem cmpLoop_cases (O N : List String) :
    (cmpLoop O N = .wildcard ∧ specFirstStop O N = some "*")
    ∨ (cmpLoop O N = .mismatch ∧ ∃ n, specFirstStop O N = some n ∧ n ≠ "*")
    ∨ (cmpLoop O N = .allMatched ∧ specFirstStop O N = none) := by
  induction O generalizing N with
  | nil =>
    right; right
    constructor
    · rfl
    · simp [specFirstStop]
  | cons o os ih =>
    cases N with
    | nil =>
      right; right
      constructor
      · rfl
      · simp [specFirstStop]
    | cons n ns =>
      by_cases hw : n = "*"
      · left
        constructor
        · simp [cmpLoop, hw]
        · simp [specFirstStop, List.find?_cons_of_pos, hw]
      · by_cases hm : n = o
        · have hstep : specFirstStop (o :: os) (n :: ns) = specFirstStop os ns := by
            simp only [specFirstStop, List.zip_cons_cons]
            rw [List.find?_cons_of_neg _ (by subst hm; simp [hw])]
          have hloop : cmpLoop (o :: os) (n :: ns) = cmpLoop os ns := by
            simp only [cmpLoop]
            rw [if_neg hw, if_neg (fun hcon => hcon hm)]
          rw [hstep, hloop]
          exact ih ns
        · right; left
          constructor
          · simp [cmpLoop, hw, hm]
          · refine ⟨n, ?_, hw⟩
            simp only [specFirstStop, List.zip_cons_cons]
            rw [List.find?_cons_of_pos _ (by simp [hm])]
            rfl

/-- The final `Option`-shaped decision of the identifier rewrite agrees
    between the code-side comparison loop and the spec-side first-stop
    description, for arbitrary segment lists. -/
theorem rewriteDecision_eq (O N : List String) :
    (match cmpLoop O N with
      | CmpOutcome.wildcard => none
      | CmpOutcome.allMatched =>
          if O.length = N.length then none else some (materializeWildcards N)
      | CmpOutcome.mismatch => some (materializeWildcards N))
    = (match specFirstStop O N with
      | some n => if n = "*" then none else some (materializeWildcards N)
      | none =>
          if O.length = N.length then none else some (materializeWildcards N)) := by
  rcases cmpLoop_cases O N with ⟨h1, h2⟩ | ⟨h1, n, h2, h3⟩ | ⟨h1, h2⟩
  · simp [h1, h2]
  · simp [h1, h2, h3]
  · simp [h1, h2]

/-- C1: `App.change_bundle_id` follows the specified identifier-rewrite
    algorithm: with the candidate taken as the explicit override when given,
    else the credential's `application-identifier`, its effect on the
    metadata mapping equals the spec-side algorithm `rewriteIdSpec` —
    unchanged on a wildcard stop or a completed equal-length comparison, and
    otherwise the wildcard-materialized candidate persisted under the
    `CFBundleIdentifier` key (with the plist written back, the `true`
    flag). -/
theorem change_bundle_id_follows_spec (oldid : String) (new_appid : Option String)
    (provisionAppId : String) (info : AList)
    (hid : lookupP "CFBundleIdentifier" info = some (.str oldid)) :
    change_bundle_id_info info new_appid provisionAppId =
      .ok (match rewriteIdSpec oldid (new_appid.getD provisionAppId) with
        | none => (info, false)
        | some nid => (setKey info "CFBundleIdentifier" (.str nid), true)) := by
  have hrw : change_bundle_id oldid new_appid provisionAppId
      = rewriteIdSpec oldid (new_appid.getD provisionAppId) := by
    have hnew : (match new_appid with
        | none => provisionAppId
        | some s => s) = new_appid.getD provisionAppId := by
      cases new_appid <;> rfl
    unfold change_bundle_id rewriteIdSpec
    rw [hnew]
    exact rewriteDecision_eq _ _
  simp only [change_bundle_id_info, hid, hrw]

/-- Witness for C1 at a concrete input: old identifier `com.acme.App` with
    credential identifier `TEAM.net.App` (no explicit override) mismatches
    at the first segment, so the identifier becomes `net.App` and is stored
    under `CFBundleIdentifier`. -/
theorem change_bundle_id_follows_spec_witness :
    change_bundle_id_info [("CFBundleIdentifier", .str "com.acme.App")] none "TEAM.net.App"
      = .ok ([("CFBundleIdentifier", PVal.str "net.App")], true) := by
  have h := change_bundle_id_follows_spec "com.acme.App" none "TEAM.net.App"
      [("CFBundleIdentifier", .str "com.acme.App")] (by decide)
  rw [h]
  decide

/-- Looking up the key just stored by `setKey` yields the stored value. -/
theorem lookupP_setKey_same (l : AList) (k : String) (v : PVal) :
    lookupP k (setKey l k v) = some v := by
  induction l with
  | nil => simp [setKey, lookupP]
  | cons p rest ih =>
    obtain ⟨k2, v2⟩ := p
    by_cases h : k2 = k
    · simp [setKey, lookupP, h]
    · simp [setKey, lookupP, h, ih]

/-- `setKey` leaves lookups of other keys unchanged. -/
theorem lookupP_setKey_of_ne (l : AList) (k q : String) (v : PVal) (h : k ≠ q) :
    lookupP q (setKey l k v) = lookupP q l := by
  induction l with
  | nil => simp [setKey, lookupP, h]
  | cons p rest ih =>
    obtain ⟨k3, v3⟩ := p
    by_cases h3 : k3 = k
    · subst h3
      simp [setKey, lookupP, h]
    · simp [setKey, lookupP, h3, ih]

/-- A key that looks up to nothing heads no pair of the list. -/
theorem lookupP_none_forall (l : AList) (k : String) (h : lookupP k l = none) :
    ∀ kv ∈ l, kv.1 ≠ k := by
  induction l with
  | nil => simp
  | cons p rest ih =>
    obtain ⟨k2, v2⟩ := p
    by_cases h2 : k2 = k
    · simp [lookupP, h2] at h
    · intro kv hkv
      rcases List.mem_cons.mp hkv with rfl | hkv2
      · exact h2
      · exact ih (by simpa [lookupP, h2] using h) kv hkv2

/-- A pair of the list makes its key look up to something. -/
theorem hasKey_of_mem (ps : AList) (kv : String × PVal) (h : kv ∈ ps) :
    hasKey kv.1 ps = true := by
  induction ps with
  | nil => cases h
  | cons p rest ih =>
    obtain ⟨k2, v2⟩ := p
    rcases List.mem_cons.mp h with rfl | hmem
    · simp [hasKey, lookupP]
    · by_cases hp : k2 = kv.1
      · simp [hasKey, lookupP, hp]
      · simpa [hasKey, lookupP, hp] using ih hmem

/-- The key/value loop leaves keys it does not carry untouched. -/
theorem applyProps_lookup_of_not_mem (info : AList) (ps : AList) (k : String)
    (h : ∀ kv ∈ ps, kv.1 ≠ k) :
    lookupP k (applyProps info ps).1 = lookupP k info := by
  induction ps generalizing info with
  | nil => simp [applyProps]
  | cons kv rest ih =>
    obtain ⟨k1, v1⟩ := kv
    have hk1 : k1 ≠ k := h (k1, v1) (List.mem_cons_self _ _)
    have hrest : ∀ kv ∈ rest, kv.1 ≠ k := fun kv hkv => h kv (List.mem_cons_of_mem _ hkv)
    by_cases hc : lookupP k1 info = some v1
    · simp only [applyProps, if_pos hc]
      exact ih info hrest
    · simp only [applyProps, if_neg hc]
      rw [ih (setKey info k1 v1) hrest]
      exact lookupP_setKey_of_ne info k1 k v1 hk1

/-- The key/value loop raises its `changed` flag exactly when some requested
    pair is not already the current value (a missing key counts). -/
theorem applyProps_wrote_iff (info : AList) (ps : AList) :
    (applyProps info ps).2 = true ↔ ∃ kv ∈ ps, ¬ lookupP kv.1 info = some kv.2 := by
  induction ps generalizing info with
  | nil => simp [applyProps]
  | cons kv rest ih =>
    obtain ⟨k1, v1⟩ := kv
    by_cases hc : lookupP k1 info = some v1
    · rw [show applyProps info ((k1, v1) :: rest) = applyProps info rest from by
        simp [applyProps, hc]]
      rw [ih info]
      constructor
      · rintro ⟨kv2, hkv2, hne⟩
        exact ⟨kv2, List.mem_cons_of_mem _ hkv2, hne⟩
      · rintro ⟨kv2, hkv2, hne⟩
        rcases List.mem_cons.mp hkv2 with rfl | hmem
        · exact absurd hc hne
        · exact ⟨kv2, hmem, hne⟩
    · constructor
      · intro _
        exact ⟨(k1, v1), List.mem_cons_self _ _, hc⟩
      · intro _
        simp [applyProps, hc]

/-- A one-pair update ends with that pair present. -/
theorem applyProps_singleton_lookup (info : AList) (k : String) (v : PVal) :
    lookupP k (applyProps info [(k, v)]).1 = some v := by
  by_cases hc : lookupP k info = some v
  · simp [applyProps, hc]
  · simp [applyProps, hc, lookupP_setKey_same]

/-- Collapsing the write/discard branch at the tail of the update. -/
theorem finishUpdate_ok (orig info1 : AList) (c0 : Bool) (ps : AList) :
    finishUpdate orig info1 c0 ps =
      .ok ({ info := (applyProps info1 ps).1,
             orig_info := if c0 || (applyProps info1 ps).2 then some orig else none },
           c0 || (applyProps info1 ps).2) := by
  unfold finishUpdate
  by_cases h : (c0 || (applyProps info1 ps).2) = true
  · simp [h]
  · simp [h]

/-- The `changed` flag of one URL-entry rewrite is the matcher. -/
theorem rewriteUrlEntry_snd (oldId newId : PVal) (e : PVal) :
    (rewriteUrlEntry oldId newId e).2 = urlEntryMatches oldId e := by
  cases e with
  | dict d =>
    cases hn : lookupP "CFBundleURLName" d with
    | none => simp [rewriteUrlEntry, urlEntryMatches, hn]
    | some n =>
      by_cases he : n = oldId <;> simp [rewriteUrlEntry, urlEntryMatches, hn, he]
  | str s => rfl
  | arr l => rfl

/-- The rewritten entry is the spec-described pointwise rewrite. -/
theorem rewriteUrlEntry_fst (oldId newId : PVal) (e : PVal) :
    (rewriteUrlEntry oldId newId e).1 = specRewriteUrlEntry oldId newId e := by
  cases e with
  | dict d =>
    cases hn : lookupP "CFBundleURLName" d with
    | none => simp [rewriteUrlEntry, specRewriteUrlEntry, hn]
    | some n =>
      by_cases he : n = oldId <;> simp [rewriteUrlEntry, specRewriteUrlEntry, hn, he]
  | str s => rfl
  | arr l => rfl

/-- The rewrite loop's list result is the spec-described map. -/
theorem rewriteUrlTypes_fst (oldId newId : PVal) (l : List PVal) :
    (rewriteUrlTypes oldId newId l).1 = l.map (specRewriteUrlEntry oldId newId) := by
  induction l with
  | nil => rfl
  | cons e rest ih => simp [rewriteUrlTypes, rewriteUrlEntry_fst, ih]

/-- The rewrite loop's `changed` flag is an existential match over entries. -/
theorem rewriteUrlTypes_snd (oldId newId : PVal) (l : List PVal) :
    (rewriteUrlTypes oldId newId l).2 = l.any (urlEntryMatches oldId) := by
  induction l with
  | nil => rfl
  | cons e rest ih => simp [rewriteUrlTypes, rewriteUrlEntry_snd, ih]

/-- Structure of every successful `update_info_props` call: the final mapping
    is the key/value loop applied to an intermediate mapping `info1` that
    agrees with the original mapping on every requested key, the write flag
    is the URL-rule flag ORed with the loop flag, and the baseline afterwards
    is kept (capturing on first use) exactly when the write flag is set. -/
theorem update_ok_shape (st : MetaStore) (ps : AList) (st2 : MetaStore) (w : Bool)
    (h : update_info_props st ps = .ok (st2, w)) :
    ∃ info1,
      st2.info = (applyProps info1 ps).1
      ∧ w = (urlHit st ps || (applyProps info1 ps).2)
      ∧ st2.orig_info = (if w then some (st.orig_info.getD st.info) else none)
      ∧ (∀ k, hasKey k ps = true → lookupP k info1 = lookupP k st.info) := by
  unfold update_info_props at h
  by_cases hcond : (hasKey "CFBundleIdentifier" ps && hasKey "CFBundleURLTypes" st.info
      && !hasKey "CFBundleURLTypes" ps) = true
  · rw [if_pos hcond] at h
    cases hold : lookupP "CFBundleIdentifier" st.info with
    | none =>
      rw [hold] at h
      exact absurd h (by simp)
    | some oldId =>
      rw [hold] at h
      cases hurl : lookupP "CFBundleURLTypes" st.info with
      | none =>
        rw [hurl] at h
        cases hnew : lookupP "CFBundleIdentifier" ps <;> rw [hnew] at h <;>
          exact absurd h (by simp)
      | some v =>
        rw [hurl] at h
        cases hnew : lookupP "CFBundleIdentifier" ps with
        | none =>
          rw [hnew] at h
          cases v <;> exact absurd h (by simp)
        | some newId =>
          rw [hnew] at h
          cases v with
          | str s => exact absurd h (by simp)
          | dict d => exact absurd h (by simp)
          | arr l =>
            have h9 : finishUpdate (st.orig_info.getD st.info)
                (setKey st.info "CFBundleURLTypes"
                  (PVal.arr (rewriteUrlTypes oldId newId l).1))
                (rewriteUrlTypes oldId newId l).2 ps = Except.ok (st2, w) := h
            rw [finishUpdate_ok] at h9
            have hinj := Except.ok.inj h9
            have hst2 := congrArg Prod.fst hinj
            have hw := congrArg Prod.snd hinj
            simp only at hst2 hw
            refine ⟨setKey st.info "CFBundleURLTypes"
                (.arr (rewriteUrlTypes oldId newId l).1), ?_, ?_, ?_, ?_⟩
            · rw [← hst2]
            · have hflag : (rewriteUrlTypes oldId newId l).2 = urlHit st ps := by
                rw [rewriteUrlTypes_snd]
                simp [urlHit, hcond, hold, hurl]
              rw [← hw, hflag]
            · rw [← hst2, ← hw]
            · intro k hk
              have hne : "CFBundleURLTypes" ≠ k := by
                intro hcon
                have h3 : hasKey "CFBundleURLTypes" ps = false := by
                  revert hcond
                  cases hasKey "CFBundleURLTypes" ps <;> simp
                rw [hcon] at h3
                rw [h3] at hk
                cases hk
              exact lookupP_setKey_of_ne st.info "CFBundleURLTypes" k _ hne
  · rw [if_neg hcond] at h
    rw [finishUpdate_ok] at h
    have hinj := Except.ok.inj h
    have hst2 := congrArg Prod.fst hinj
    have hw := congrArg Prod.snd hinj
    simp only at hst2 hw
    have hnohit : urlHit st ps = false := by
      unfold urlHit
      revert hcond
      cases hasKey "CFBundleIdentifier" ps <;>
        cases hasKey "CFBundleURLTypes" st.info <;>
        cases hasKey "CFBundleURLTypes" ps <;> simp
    refine ⟨st.info, ?_, ?_, ?_, ?_⟩
    · rw [← hst2]
    · rw [← hw, hnohit]
    · rw [← hst2, ← hw]
    · intro k _
      rfl

/-- C7 counterexample: an update whose only requested pair equals the
    current value still performs a write-back (flag `true`, baseline
    captured), because the `CFBundleURLTypes` rewrite raises the `changed`
    flag on a scheme entry whose URL name equals the (unchanged) identifier.
    This refutes "write-back occurs only when at least one requested
    key/value differs from the current mapping". -/
theorem update_writes_without_diff_cx :
    update_info_props
      ⟨[("CFBundleIdentifier", PVal.str "a"),
        ("CFBundleURLTypes", PVal.arr [PVal.dict [("CFBundleURLName", PVal.str "a")]])],
       none⟩
      [("CFBundleIdentifier", PVal.str "a")]
      = .ok (⟨[("CFBundleIdentifier", PVal.str "a"),
               ("CFBundleURLTypes", PVal.arr [PVal.dict [("CFBundleURLName", PVal.str "a")]])],
              some [("CFBundleIdentifier", PVal.str "a"),
                    ("CFBundleURLTypes", PVal.arr [PVal.dict [("CFBundleURLName", PVal.str "a")]])]⟩,
             true)
    ∧ lookupP "CFBundleIdentifier"
        [("CFBundleIdentifier", PVal.str "a"),
         ("CFBundleURLTypes", PVal.arr [PVal.dict [("CFBundleURLName", PVal.str "a")]])]
        = some (PVal.str "a") := by
  constructor <;> decide

/-- C7 amended: a successful `update_info_props` performs a write-back iff
    at least one requested key/value differs from the current mapping
    (absence of the key counting as a difference) OR the URL-scheme rewrite
    rule matched at least one scheme entry (which can happen even when the
    requested identifier equals the current one). -/
theorem update_writes_iff_diff_or_urlHit (st : MetaStore) (ps : AList)
    (st2 : MetaStore) (w : Bool)
    (h : update_info_props st ps = .ok (st2, w)) :
    w = true ↔
      (∃ kv ∈ ps, ¬ lookupP kv.1 st.info = some kv.2) ∨ urlHit st ps = true := by
  obtain ⟨info1, _, hw, _, hpres⟩ := update_ok_shape st ps st2 w h
  have hiff : (applyProps info1 ps).2 = true
      ↔ ∃ kv ∈ ps, ¬ lookupP kv.1 st.info = some kv.2 := by
    rw [applyProps_wrote_iff]
    constructor
    · rintro ⟨kv, hkv, hne⟩
      refine ⟨kv, hkv, ?_⟩
      rw [← hpres kv.1 (hasKey_of_mem ps kv hkv)]
      exact hne
    · rintro ⟨kv, hkv, hne⟩
      refine ⟨kv, hkv, ?_⟩
      rw [hpres kv.1 (hasKey_of_mem ps kv hkv)]
      exact hne
  rw [hw, Bool.or_eq_true, hiff]
  exact Or.comm

/-- Witness for C7 (amended) at a concrete input: updating `K` from `v0` to
    `v1` writes, and the theorem instantiated there yields the differing
    requested pair. -/
theorem update_writes_iff_diff_or_urlHit_witness :
    (∃ kv ∈ [("K", PVal.str "v1")], ¬ lookupP kv.1 [("K", PVal.str "v0")] = some kv.2)
    ∨ urlHit ⟨[("K", PVal.str "v0")], none⟩ [("K", PVal.str "v1")] = true := by
  have h := update_writes_iff_diff_or_urlHit ⟨[("K", PVal.str "v0")], none⟩
      [("K", PVal.str "v1")] ⟨[("K", PVal.str "v1")], some [("K", PVal.str "v0")]⟩ true
      (by decide)
  exact h.mp rfl

/-- C10 counterexample: an update whose only requested pair equals the
    current value does not reset the baseline when the URL-scheme rewrite
    fires: the previously held baseline survives and `hasChanges` stays
    true.  This refutes "any update call in which no requested key/value
    differs resets the held baseline to None". -/
theorem noop_update_keeps_baseline_cx :
    update_info_props
      ⟨[("CFBundleIdentifier", PVal.str "b"),
        ("CFBundleURLTypes", PVal.arr [PVal.dict [("CFBundleURLName", PVal.str "b")]]),
        ("X", PVal.str "1")], some [("X", PVal.str "0")]⟩
      [("CFBundleIdentifier", PVal.str "b")]
      = .ok (⟨[("CFBundleIdentifier", PVal.str "b"),
               ("CFBundleURLTypes", PVal.arr [PVal.dict [("CFBundleURLName", PVal.str "b")]]),
               ("X", PVal.str "1")], some [("X", PVal.str "0")]⟩, true)
    ∧ lookupP "CFBundleIdentifier"
        [("CFBundleIdentifier", PVal.str "b"),
         ("CFBundleURLTypes", PVal.arr [PVal.dict [("CFBundleURLName", PVal.str "b")]]),
         ("X", PVal.str "1")] = some (PVal.str "b")
    ∧ info_props_changed
        ⟨[("CFBundleIdentifier", PVal.str "b"),
          ("CFBundleURLTypes", PVal.arr [PVal.dict [("CFBundleURLName", PVal.str "b")]]),
          ("X", PVal.str "1")], some [("X", PVal.str "0")]⟩ = true := by
  refine ⟨?_, ?_, ?_⟩ <;> decide

/-- C10 amended: any successful update call in which no requested key/value
    differs from the current mapping AND the URL-scheme rewrite matches no
    entry resets the held baseline to `None`, so afterwards `hasChanges` and
    `hasChanged(key)` for every key return false — even when an earlier
    update call had committed changes that still differ from the original
    values. -/
theorem noop_update_resets_baseline (st : MetaStore) (ps : AList)
    (st2 : MetaStore) (w : Bool)
    (h : update_info_props st ps = .ok (st2, w))
    (hnd : ∀ kv ∈ ps, lookupP kv.1 st.info = some kv.2)
    (hnu : urlHit st ps = false) :
    w = false ∧ st2.orig_info = none ∧ info_props_changed st2 = false
    ∧ (∀ k, info_prop_changed st2 k = false) := by
  obtain ⟨info1, _, hw, horig, hpres⟩ := update_ok_shape st ps st2 w h
  have hflag : (applyProps info1 ps).2 = false := by
    cases hb : (applyProps info1 ps).2
    · rfl
    · rcases (applyProps_wrote_iff info1 ps).mp hb with ⟨kv, hkv, hne⟩
      exact absurd (by rw [hpres kv.1 (hasKey_of_mem ps kv hkv)]; exact hnd kv hkv) hne
  have hwf : w = false := by rw [hw, hnu, hflag]; rfl
  refine ⟨hwf, ?_, ?_, ?_⟩
  · rw [horig, hwf]
    rfl
  · have : st2.orig_info = none := by rw [horig, hwf]; rfl
    simp [info_props_changed, this]
  · intro k
    have : st2.orig_info = none := by rw [horig, hwf]; rfl
    simp [info_prop_changed, this]

/-- Witness for C10 (amended) at a concrete input: re-sending the committed
    value makes no write, drops the baseline, and clears both dirty
    checks — even though the mapping still differs from its original
    value. -/
theorem noop_update_resets_baseline_witness :
    info_props_changed ⟨[("K", PVal.str "v1")], none⟩ = false
    ∧ info_prop_changed ⟨[("K", PVal.str "v1")], none⟩ "K" = false := by
  have h := noop_update_resets_baseline
      ⟨[("K", PVal.str "v1")], some [("K", PVal.str "v0")]⟩ [("K", PVal.str "v1")]
      ⟨[("K", PVal.str "v1")], none⟩ false (by decide) (by decide) (by decide)
  exact ⟨h.2.2.1, h.2.2.2 "K"⟩

/-- C6 counterexample: updating `K` from `v0` to `v1` and then back to `v0`
    leaves `hasChanges` returning TRUE, not false: the reverting call itself
    changes a value, so it writes and keeps the baseline; nothing ever
    compares the baseline against the current mapping.  This refutes "final
    hasChanges() is false (baseline equals current)". -/
theorem revert_keeps_baseline_cx :
    update_info_props ⟨[("K", PVal.str "v0")], none⟩ [("K", PVal.str "v1")]
      = .ok (⟨[("K", PVal.str "v1")], some [("K", PVal.str "v0")]⟩, true)
    ∧ update_info_props ⟨[("K", PVal.str "v1")], some [("K", PVal.str "v0")]⟩
        [("K", PVal.str "v0")]
      = .ok (⟨[("K", PVal.str "v0")], some [("K", PVal.str "v0")]⟩, true)
    ∧ info_props_changed ⟨[("K", PVal.str "v0")], some [("K", PVal.str "v0")]⟩ = true := by
  refine ⟨?_, ?_, ?_⟩ <;> decide

/-- C6 amended: for a store with baseline unset and original value `v0` at
    key `K`, updating to a different `v1` and then back to `v0` leaves
    `hasChanges()` returning TRUE — the baseline is retained because the
    reverting update itself changed a value — although the per-key check
    `hasChanged(K)` returns false (the current value equals the baseline
    value again). -/
theorem revert_keeps_baseline (st : MetaStore) (k v0 v1 : String)
    (st1 st2 : MetaStore) (w1 w2 : Bool)
    (horig : st.orig_info = none)
    (hk : lookupP k st.info = some (.str v0))
    (hne : v0 ≠ v1)
    (h1 : update_info_props st [(k, .str v1)] = .ok (st1, w1))
    (h2 : update_info_props st1 [(k, .str v0)] = .ok (st2, w2)) :
    info_props_changed st2 = true ∧ info_prop_changed st2 k = false := by
  obtain ⟨i1, hinfo1, hw1, horig1, hpres1⟩ := update_ok_shape _ _ _ _ h1
  have hhk1 : hasKey k [(k, PVal.str v1)] = true := by simp [hasKey, lookupP]
  have hd1 : lookupP k i1 = some (.str v0) := by rw [hpres1 k hhk1]; exact hk
  have hw1t : w1 = true := by
    rw [hw1]
    have hfl : (applyProps i1 [(k, .str v1)]).2 = true := by
      refine (applyProps_wrote_iff _ _).mpr ⟨(k, .str v1), by simp, ?_⟩
      rw [hd1]
      intro hcon
      exact hne (PVal.str.inj (Option.some.inj hcon))
    rw [hfl, Bool.or_true]
  have hst1info : lookupP k st1.info = some (.str v1) := by
    rw [hinfo1]
    exact applyProps_singleton_lookup i1 k (.str v1)
  have hst1orig : st1.orig_info = some st.info := by
    rw [horig1, hw1t, if_pos rfl, horig]
    rfl
  obtain ⟨i2, hinfo2, hw2, horig2, hpres2⟩ := update_ok_shape _ _ _ _ h2
  have hhk2 : hasKey k [(k, PVal.str v0)] = true := by simp [hasKey, lookupP]
  have hd2 : lookupP k i2 = some (.str v1) := by rw [hpres2 k hhk2]; exact hst1info
  have hw2t : w2 = true := by
    rw [hw2]
    have hfl : (applyProps i2 [(k, .str v0)]).2 = true := by
      refine (applyProps_wrote_iff _ _).mpr ⟨(k, .str v0), by simp, ?_⟩
      rw [hd2]
      intro hcon
      exact hne (PVal.str.inj (Option.some.inj hcon)).symm
    rw [hfl, Bool.or_true]
  have hst2info : lookupP k st2.info = some (.str v0) := by
    rw [hinfo2]
    exact applyProps_singleton_lookup i2 k (.str v0)
  have hst2orig : st2.orig_info = some st.info := by
    rw [horig2, hw2t, if_pos rfl, hst1orig]
    rfl
  have hnonnil : st.info ≠ [] := by
    intro hcon
    rw [hcon] at hk
    simp [lookupP] at hk
  constructor
  · simp [info_props_changed, hst2orig]
  · simp only [info_prop_changed, hst2orig]
    rw [if_neg hnonnil]
    simp [hasKey, hst2info, hk]

/-- Witness for C6 (amended) at a concrete input: after `v0 → v1 → v0` on
    key `K`, the whole-store dirty flag is still set while the per-key check
    is clear. -/
theorem revert_keeps_baseline_witness :
    info_props_changed ⟨[("K", PVal.str "v0")], some [("K", PVal.str "v0")]⟩ = true
    ∧ info_prop_changed ⟨[("K", PVal.str "v0")], some [("K", PVal.str "v0")]⟩ "K" = false :=
  revert_keeps_baseline ⟨[("K", PVal.str "v0")], none⟩ "K" "v0" "v1"
    ⟨[("K", PVal.str "v1")], some [("K", PVal.str "v0")]⟩
    ⟨[("K", PVal.str "v0")], some [("K", PVal.str "v0")]⟩ true true rfl (by decide)
    (by decide) (by decide) (by decide)

/-- C8: when a successful update carries a changed `CFBundleIdentifier`, the
    current mapping carries a `CFBundleURLTypes` array the update does not
    itself set, the resulting mapping's URL-scheme list is the pointwise
    spec-described rewrite: every scheme entry whose `CFBundleURLName`
    equals the old identifier has it replaced by the new identifier, and
    entries with a different URL name or with no URL name key are left
    unchanged. -/
theorem url_schemes_rewritten_on_id_change (st : MetaStore) (ps : AList)
    (st2 : MetaStore) (w : Bool) (oldId newId : PVal) (l : List PVal)
    (h : update_info_props st ps = .ok (st2, w))
    (hold : lookupP "CFBundleIdentifier" st.info = some oldId)
    (hurl : lookupP "CFBundleURLTypes" st.info = some (.arr l))
    (hnew : lookupP "CFBundleIdentifier" ps = some newId)
    (_hch : newId ≠ oldId)
    (hnotps : hasKey "CFBundleURLTypes" ps = false) :
    lookupP "CFBundleURLTypes" st2.info
      = some (.arr (l.map (specRewriteUrlEntry oldId newId))) := by
  have hcond : (hasKey "CFBundleIdentifier" ps && hasKey "CFBundleURLTypes" st.info
      && !hasKey "CFBundleURLTypes" ps) = true := by
    simp [hasKey, hnew, hurl, hnotps]
    simpa [hasKey] using hnotps
  unfold update_info_props at h
  rw [if_pos hcond, hold, hurl, hnew] at h
  have h9 : finishUpdate (st.orig_info.getD st.info)
      (setKey st.info "CFBundleURLTypes" (PVal.arr (rewriteUrlTypes oldId newId l).1))
      (rewriteUrlTypes oldId newId l).2 ps = Except.ok (st2, w) := h
  rw [finishUpdate_ok] at h9
  have hst2 := congrArg Prod.fst (Except.ok.inj h9)
  simp only at hst2
  have hnone : lookupP "CFBundleURLTypes" ps = none := by
    cases hx : lookupP "CFBundleURLTypes" ps with
    | none => rfl
    | some v => simp [hasKey, hx] at hnotps
  rw [← hst2]
  rw [applyProps_lookup_of_not_mem _ _ _ (lookupP_none_forall ps _ hnone)]
  rw [lookupP_setKey_same, rewriteUrlTypes_fst]

/-- Witness for C8 at a concrete input: identifier changes from `old` to
    `new`; of the three scheme entries, only the one whose URL name is `old`
    is rewritten, the entry with another name and the entry with no URL name
    key are unchanged. -/
theorem url_schemes_rewritten_on_id_change_witness :
    lookupP "CFBundleURLTypes"
      [("CFBundleIdentifier", PVal.str "new"),
       ("CFBundleURLTypes", PVal.arr
         [PVal.dict [("CFBundleURLName", PVal.str "new")],
          PVal.dict [("CFBundleURLName", PVal.str "other")],
          PVal.dict [("x", PVal.str "y")]])]
      = some (PVal.arr
          ([PVal.dict [("CFBundleURLName", PVal.str "old")],
            PVal.dict [("CFBundleURLName", PVal.str "other")],
            PVal.dict [("x", PVal.str "y")]].map
            (specRewriteUrlEntry (PVal.str "old") (PVal.str "new")))) := by
  have h := url_schemes_rewritten_on_id_change
    ⟨[("CFBundleIdentifier", PVal.str "old"),
      ("CFBundleURLTypes", PVal.arr
        [PVal.dict [("CFBundleURLName", PVal.str "old")],
         PVal.dict [("CFBundleURLName", PVal.str "other")],
         PVal.dict [("x", PVal.str "y")]])], none⟩
    [("CFBundleIdentifier", PVal.str "new")]
    ⟨[("CFBundleIdentifier", PVal.str "new"),
      ("CFBundleURLTypes", PVal.arr
        [PVal.dict [("CFBundleURLName", PVal.str "new")],
         PVal.dict [("CFBundleURLName", PVal.str "other")],
         PVal.dict [("x", PVal.str "y")]])],
     some [("CFBundleIdentifier", PVal.str "old"),
           ("CFBundleURLTypes", PVal.arr
             [PVal.dict [("CFBundleURLName", PVal.str "old")],
              PVal.dict [("CFBundleURLName", PVal.str "other")],
              PVal.dict [("x", PVal.str "y")]])]⟩ true
    (PVal.str "old") (PVal.str "new")
    [PVal.dict [("CFBundleURLName", PVal.str "old")],
     PVal.dict [("CFBundleURLName", PVal.str "other")],
     PVal.dict [("x", PVal.str "y")]]
    (by decide) (by decide) (by decide) (by decide) (by decide) (by decide)
  simpa using h

end Isign
